import Mathlib

/-!
Verification of the Obramais construction-budget application
(`src/Obramais.py`): a quantity calculator, an append-only ledger of
line items, a totals projection, and four exporters (Excel, PDF, CSV,
DOCX).

Modelling conventions:
* Python floats are modelled as exact rationals (`ℚ`); Python's `round`
  (round half to even) is `roundTo` below.
* A Python dict is an insertion-ordered association list (`Dict`);
  `dict.update` replaces the value of an existing key in place and
  appends new keys, as in CPython.
* `st.session_state["items"]` is passed explicitly as a `List Dict`.
* Each exporter's output is modelled as the list of logical content
  elements it emits (`Elem`); the CSV exporter additionally as the
  actual string produced by `DataFrame.to_csv(index=False, sep=";")`.
-/

namespace Obramais

/-- A cell value of a line item: Python `str` or a numeric value. -/
inductive Val where
  | str (s : String)
  | num (q : ℚ)
deriving DecidableEq

/-- A Python dict as an insertion-ordered association list. -/
abbrev Dict := List (String × Val)

/-- `d[k]` lookup: the first (and, for genuine dicts, only) binding of `k`. -/
def Dict.get (d : Dict) (k : String) : Option Val :=
  (d.find? fun p => p.1 == k).map Prod.snd

/-- `d[k] = v`: replace the binding of `k` in place if present, else append,
exactly as CPython dict assignment behaves. -/
def Dict.set : Dict → String → Val → Dict
  | [], k, v => [(k, v)]
  | p :: d, k, v => if p.1 == k then (k, v) :: d else p :: Dict.set d k v

/-- `d.update(other)` of Python: assign each binding of `other` in order. -/
def Dict.update (d other : Dict) : Dict :=
  other.foldl (fun acc p => Dict.set acc p.1 p.2) d

/-- Python's `round` on a rational: round half to even (banker's rounding). -/
def roundHalfEven (q : ℚ) : ℤ :=
  if q - (⌊q⌋ : ℚ) < 1/2 then ⌊q⌋
  else if 1/2 < q - (⌊q⌋ : ℚ) then ⌊q⌋ + 1
  else if ⌊q⌋ % 2 = 0 then ⌊q⌋ else ⌊q⌋ + 1

/-- Python's `round(q, n)`. -/
def roundTo (n : ℕ) (q : ℚ) : ℚ :=
  (roundHalfEven (q * 10 ^ n) : ℚ) / 10 ^ n

/-- `calc_qtd_necessaria` from the source.  (`desperdicio_pct or 0` is the
identity on numbers: a falsy numeric value is `0` itself.) -/
def calc_qtd_necessaria (medida cobertura_por_unidade desperdicio_pct : ℚ) : ℚ :=
  if cobertura_por_unidade ≤ 0 then 0
  else (medida / cobertura_por_unidade) * (1 + desperdicio_pct / 100)

/-- The eight fixed fields of a line item, in the order `add_item` writes
them. -/
def fixedFields (material : String) (medida cobertura : ℚ) (unidade : String)
    (desperdicio : ℚ) (qtd preco_unit subtotal : ℚ) : Dict :=
  [("Material", Val.str material),
   ("Medida", Val.num medida),
   ("Cobertura por Unidade", Val.num cobertura),
   ("Unidade", Val.str unidade),
   ("Desperdício (%)", Val.num desperdicio),
   ("Qtd Necessária", Val.num qtd),
   ("Preço Unitário", Val.num preco_unit),
   ("Subtotal", Val.num subtotal)]

/-- The line item built by `add_item`: derived quantities computed and
rounded, then `item.update(especificacoes)`.  (`preco_unit or 0.0` is
again the identity on numbers.) -/
def mkItem (material : String) (medida cobertura : ℚ) (unidade : String)
    (desperdicio preco_unit : ℚ) (especificacoes : Dict) : Dict :=
  let qtd := roundTo 3 (calc_qtd_necessaria medida cobertura desperdicio)
  let subtotal := roundTo 2 (preco_unit * qtd)
  Dict.update
    (fixedFields material medida cobertura unidade desperdicio qtd preco_unit subtotal)
    especificacoes

/-- `add_item`: append the built item to `st.session_state["items"]`. -/
def add_item (items : List Dict) (material : String) (medida cobertura : ℚ)
    (unidade : String) (desperdicio preco_unit : ℚ) (especificacoes : Dict) :
    List Dict :=
  items ++ [mkItem material medida cobertura unidade desperdicio preco_unit especificacoes]

/-- `df_resumo`: the DataFrame over the session items; its rows are the
items in order (an empty item list gives an empty frame). -/
def df_resumo (items : List Dict) : List Dict := items

/-- One `add_item` call's arguments. -/
structure Call where
  material : String
  medida : ℚ
  cobertura : ℚ
  unidade : String
  desperdicio : ℚ
  preco_unit : ℚ
  especificacoes : Dict

/-- The item a call stores. -/
def itemOfCall (c : Call) : Dict :=
  mkItem c.material c.medida c.cobertura c.unidade c.desperdicio c.preco_unit
    c.especificacoes

/-- One interaction step: the `add_item` call applied to the session state. -/
def stepCall (st : List Dict) (c : Call) : List Dict :=
  add_item st c.material c.medida c.cobertura c.unidade c.desperdicio
    c.preco_unit c.especificacoes

/-- The ledger reached from the empty session by a sequence of calls. -/
def runCalls (calls : List Call) : List Dict :=
  calls.foldl stepCall []

/-- Add a column name if not yet present (pandas column-union order). -/
def addCol (acc : List String) (k : String) : List String :=
  if acc.contains k then acc else acc ++ [k]

/-- `df.columns`: union of the rows' keys in first-appearance order, as
pandas builds a frame from a list of dicts. -/
def dfColumns (df : List Dict) : List String :=
  df.foldl (fun acc row => row.foldl (fun a p => addCol a p.1) acc) []

/-- `c in df.columns`. -/
def hasCol (df : List Dict) (c : String) : Bool :=
  (dfColumns df).contains c

/-- A row's numeric cell in column `c`; a missing cell is NaN in pandas and
contributes nothing to a column sum, hence `0` here. -/
def cellNum (row : Dict) (c : String) : ℚ :=
  match Dict.get row c with
  | some (Val.num q) => q
  | _ => 0

/-- `df[c].sum()` over numeric cells. -/
def colSum (df : List Dict) (c : String) : ℚ :=
  (df.map fun row => cellNum row c).sum

/-- `float(df["Subtotal"].sum()) if "Subtotal" in df.columns else 0.0`. -/
def total_materiais (df : List Dict) : ℚ :=
  if hasCol df "Subtotal" then colSum df "Subtotal" else 0

/-- `total_final = total + mao_obra + impostos`. -/
def total_final (df : List Dict) (mao_obra impostos : ℚ) : ℚ :=
  total_materiais df + mao_obra + impostos

/-- Two-digit zero-padded integer, for the cents of a currency amount. -/
def pad2 (n : ℤ) : String :=
  if n < 10 then "0" ++ toString n else toString n

/-- Python's `f"{q:.2f}"` on the non-negative amounts the app formats:
round half to even at 2 decimals, then print `whole.cents`. -/
def fmt2 (q : ℚ) : String :=
  let c := roundHalfEven (q * 100)
  toString (Int.ediv c 100) ++ "." ++ pad2 (Int.emod c 100)

/-- Python's `x or '-'` on a string: `'-'` when empty. -/
def orDash (s : String) : String := if s = "" then "-" else s

/-- `str(r[c])` for a cell; a column missing from the row is NaN. -/
def cellStr (row : Dict) (c : String) : String :=
  match Dict.get row c with
  | some (Val.str s) => s
  | some (Val.num q) => toString q
  | none => "nan"

/-- One table row rendered as strings in column order. -/
def rowStrings (cols : List String) (row : Dict) : List String :=
  cols.map (cellStr row)

/-- A logical content element emitted by an exporter: document title,
metadata line, the data table, or one line of the totals block.
(Presentation details — bold markup, grid style, sheet name — are the
format libraries' concern and are not part of the logical content.) -/
inductive Elem where
  | title (s : String)
  | metaLine (s : String)
  | tableElem (header : List String) (rows : List (List String))
  | totalsLine (s : String)
deriving DecidableEq

/-- Is this element part of the totals block? -/
def Elem.isTotals : Elem → Bool
  | totalsLine _ => true
  | _ => false

/-- The table element an exporter renders for `df`. -/
def tableOf (df : List Dict) : Elem :=
  Elem.tableElem (dfColumns df) (df.map (rowStrings (dfColumns df)))

/-- The four totals lines of `make_pdf_bytes`/`make_docx_bytes`:
materials, labor, taxes, grand total, each as currency with 2 decimals. -/
def totalsBlock (df : List Dict) (mao_obra impostos : ℚ) : List Elem :=
  let total := total_materiais df
  [Elem.totalsLine ("Materiais: R$ " ++ fmt2 total),
   Elem.totalsLine ("Mão de obra: R$ " ++ fmt2 mao_obra),
   Elem.totalsLine ("Impostos: R$ " ++ fmt2 impostos),
   Elem.totalsLine ("Total: R$ " ++ fmt2 (total + mao_obra + impostos))]

/-- `make_excel_bytes`: `df.to_excel` writes the header row and the data
rows only — no title, metadata or totals. -/
def make_excel_content (df : List Dict) : List Elem :=
  [tableOf df]

/-- `make_pdf_bytes`: title, one combined metadata line (with the
generation time `now`), and — only when the frame is non-empty — the
table followed by the totals block. -/
def make_pdf_content (df : List Dict) (projeto cliente responsavel : String)
    (mao_obra impostos : ℚ) (now : String) : List Elem :=
  [Elem.title ("Orçamento de Materiais — " ++ projeto),
   Elem.metaLine ("Cliente: " ++ orDash cliente ++ " | Responsável: " ++
     orDash responsavel ++ " | Data: " ++ now)]
  ++ if df.isEmpty then []
     else tableOf df :: totalsBlock df mao_obra impostos

/-- `make_docx_bytes`: heading, four metadata paragraphs (with the
generation time `now`), and — only when the frame is non-empty — the
table followed by the totals block. -/
def make_docx_content (df : List Dict) (projeto cliente responsavel : String)
    (mao_obra impostos : ℚ) (now : String) : List Elem :=
  [Elem.title ("Orçamento de Materiais — " ++ projeto),
   Elem.metaLine ("Cliente: " ++ orDash cliente),
   Elem.metaLine ("Responsável: " ++ orDash responsavel),
   Elem.metaLine ("Data: " ++ now),
   Elem.metaLine ""]
  ++ if df.isEmpty then []
     else tableOf df :: totalsBlock df mao_obra impostos

/-- `make_csv_bytes`: the table only, as emitted by
`df.to_csv(index=False, sep=";")` — no title, metadata or totals. -/
def make_csv_content (df : List Dict) : List Elem :=
  [tableOf df]

/-- The string `df.to_csv(index=False, sep=";")` produces: the
semicolon-joined header line, then one line per row, newline-terminated. -/
def make_csv_string (df : List Dict) : String :=
  String.intercalate "\n"
    (String.intercalate ";" (dfColumns df)
      :: df.map fun row => String.intercalate ";" (rowStrings (dfColumns df) row))
  ++ "\n"

/-- Is this `Val` non-negative when numeric?  (Strings are vacuously fine.) -/
def Val.nonnegB : Val → Bool
  | str _ => true
  | num q => decide (0 ≤ q)

/-- The stored derived fields of a row are non-negative wherever numeric. -/
def rowNonneg (row : Dict) : Prop :=
  ∀ q : ℚ,
    (Dict.get row "Qtd Necessária" = some (Val.num q) ∨
     Dict.get row "Subtotal" = some (Val.num q)) → 0 ≤ q

/-- All numeric inputs of a call are non-negative (the four numeric
arguments and every numeric value among the extra fields). -/
def goodCall (c : Call) : Prop :=
  0 ≤ c.medida ∧ 0 ≤ c.cobertura ∧ 0 ≤ c.desperdicio ∧ 0 ≤ c.preco_unit ∧
    ∀ p ∈ c.especificacoes, Val.nonnegB p.2 = true

/-- A sample non-empty one-row table, for concrete instantiations. -/
def sampleDf : List Dict := [[("Material", Val.str "Cimento")]]

/-- A sample extra-fields record with keys disjoint from the fixed columns. -/
def especSample : Dict := [("Tipo", Val.str "PVC")]

/-- The spec's worked scenario as an `add_item` call. -/
def cimentoCall : Call :=
  ⟨"Cimento", 50, 25, "saco", 10, 30, []⟩

/-! ### Dictionary lemmas -/

theorem Dict.get_set_self (d : Dict) (k : String) (v : Val) :
    Dict.get (Dict.set d k v) k = some v := by
  induction d with
  | nil => simp [Dict.set, Dict.get]
  | cons p d ih =>
    by_cases h : p.1 == k
    · simp [Dict.set, h, Dict.get, List.find?]
    · simpa [Dict.set, h, Dict.get, List.find?] using ih

theorem Dict.get_set_ne (d : Dict) (k k' : String) (v : Val) (h : k' ≠ k) :
    Dict.get (Dict.set d k v) k' = Dict.get d k' := by
  have hkk : (k == k') = false := by simpa using Ne.symm h
  induction d with
  | nil => simp [Dict.set, Dict.get, List.find?, hkk]
  | cons p d ih =>
    by_cases hp : p.1 == k
    · have hp' : p.1 = k := by simpa using hp
      simp [Dict.set, hp, Dict.get, List.find?, hkk, hp']
    · by_cases hp' : p.1 == k'
      · simp [Dict.set, hp, Dict.get, List.find?, hp']
      · simpa [Dict.set, hp, Dict.get, List.find?, hp'] using ih

theorem Dict.get_eq_none_iff (d : Dict) (k : String) :
    Dict.get d k = none ↔ ∀ p ∈ d, p.1 ≠ k := by
  simp [Dict.get, List.find?_eq_none]

theorem Dict.update_cons (d : Dict) (p : String × Val) (esp : Dict) :
    Dict.update d (p :: esp) = Dict.update (Dict.set d p.1 p.2) esp := rfl

theorem Dict.update_nil (d : Dict) : Dict.update d [] = d := rfl

theorem Dict.get_update_of_none (esp d : Dict) (k : String)
    (h : Dict.get esp k = none) :
    Dict.get (Dict.update d esp) k = Dict.get d k := by
  induction esp generalizing d with
  | nil => rfl
  | cons p esp ih =>
    rw [Dict.get_eq_none_iff] at h
    have hp : p.1 ≠ k := h p (List.mem_cons_self p esp)
    have h' : Dict.get esp k = none :=
      (Dict.get_eq_none_iff esp k).mpr fun q hq => h q (List.mem_cons_of_mem p hq)
    rw [Dict.update_cons, ih _ h', Dict.get_set_ne _ _ _ _ (Ne.symm hp)]

theorem Dict.get_update_of_get (esp d : Dict) (k : String) (v : Val)
    (hnd : (esp.map Prod.fst).Nodup) (h : Dict.get esp k = some v) :
    Dict.get (Dict.update d esp) k = some v := by
  induction esp generalizing d with
  | nil => simp [Dict.get] at h
  | cons p esp ih =>
    by_cases hp : p.1 == k
    · have hp' : p.1 = k := by simpa using hp
      have hv : v = p.2 := by
        simp [Dict.get, List.find?, hp] at h
        exact h.symm
      have hmem : k ∉ esp.map Prod.fst := by
        simpa [hp'] using (List.nodup_cons.mp hnd).1
      have hnone : Dict.get esp k = none :=
        (Dict.get_eq_none_iff esp k).mpr fun q hq hq1 =>
          hmem (hq1 ▸ List.mem_map_of_mem Prod.fst hq)
      rw [Dict.update_cons, Dict.get_update_of_none _ _ _ hnone, hp', hv,
        Dict.get_set_self]
    · have h' : Dict.get esp k = some v := by
        simpa [Dict.get, List.find?, hp] using h
      rw [Dict.update_cons]
      exact ih _ (List.nodup_cons.mp hnd).2 h'

theorem Dict.get_update_cases (esp d : Dict) (k : String) :
    Dict.get (Dict.update d esp) k = Dict.get d k ∨
      ∃ v, (k, v) ∈ esp ∧ Dict.get (Dict.update d esp) k = some v := by
  induction esp generalizing d with
  | nil => exact Or.inl rfl
  | cons p esp ih =>
    rw [Dict.update_cons]
    rcases ih (Dict.set d p.1 p.2) with h | ⟨v, hv, h⟩
    · by_cases hp : p.1 = k
      · refine Or.inr ⟨p.2, ?_, ?_⟩
        · subst hp
          exact List.mem_cons_self p esp
        · rw [h, hp, Dict.get_set_self]
      · exact Or.inl (by rw [h, Dict.get_set_ne _ _ _ _ (Ne.symm hp)])
    · exact Or.inr ⟨v, List.mem_cons_of_mem p hv, h⟩

/-! ### Rounding and arithmetic lemmas -/

theorem roundHalfEven_nonneg (q : ℚ) (h : 0 ≤ q) : 0 ≤ roundHalfEven q := by
  unfold roundHalfEven
  have hf : (0 : ℤ) ≤ ⌊q⌋ := Int.floor_nonneg.mpr h
  split_ifs <;> omega

theorem roundTo_nonneg (n : ℕ) (q : ℚ) (h : 0 ≤ q) : 0 ≤ roundTo n q := by
  unfold roundTo
  have h2 : (0 : ℤ) ≤ roundHalfEven (q * 10 ^ n) :=
    roundHalfEven_nonneg _ (by positivity)
  positivity

theorem calc_qtd_necessaria_nonneg (m c w : ℚ) (hm : 0 ≤ m) (hw : 0 ≤ w) :
    0 ≤ calc_qtd_necessaria m c w := by
  unfold calc_qtd_necessaria
  split_ifs with hc
  · exact le_refl 0
  · have hc' : 0 < c := lt_of_not_le hc
    have h1 : (0 : ℚ) ≤ m / c := div_nonneg hm hc'.le
    have h2 : (0 : ℚ) ≤ 1 + w / 100 := by positivity
    exact mul_nonneg h1 h2

/-! ### Ledger lemmas -/

theorem foldl_stepCall (calls : List Call) (init : List Dict) :
    calls.foldl stepCall init = init ++ calls.map itemOfCall := by
  induction calls generalizing init with
  | nil => simp
  | cons c cs ih =>
    rw [List.foldl_cons, ih]
    show (init ++ [itemOfCall c]) ++ cs.map itemOfCall = _
    simp

theorem runCalls_eq_map (calls : List Call) :
    runCalls calls = calls.map itemOfCall := by
  simpa using foldl_stepCall calls []

/-! ### Item structure lemmas -/

theorem mkItem_eq_update (material : String) (medida cobertura : ℚ)
    (unidade : String) (desperdicio preco_unit : ℚ) (esp : Dict) :
    mkItem material medida cobertura unidade desperdicio preco_unit esp
      = Dict.update
          (fixedFields material medida cobertura unidade desperdicio
            (roundTo 3 (calc_qtd_necessaria medida cobertura desperdicio))
            preco_unit
            (roundTo 2 (preco_unit *
              roundTo 3 (calc_qtd_necessaria medida cobertura desperdicio))))
          esp := rfl

theorem fixedFields_get_qtd (material : String) (medida cobertura : ℚ)
    (unidade : String) (desperdicio qtd preco_unit subtotal : ℚ) :
    Dict.get
        (fixedFields material medida cobertura unidade desperdicio qtd
          preco_unit subtotal) "Qtd Necessária"
      = some (Val.num qtd) := rfl

theorem fixedFields_get_subtotal (material : String) (medida cobertura : ℚ)
    (unidade : String) (desperdicio qtd preco_unit subtotal : ℚ) :
    Dict.get
        (fixedFields material medida cobertura unidade desperdicio qtd
          preco_unit subtotal) "Subtotal"
      = some (Val.num subtotal) := rfl

theorem Dict.get_some_mem (d : Dict) (k : String) (v : Val)
    (h : Dict.get d k = some v) : (k, v) ∈ d := by
  unfold Dict.get at h
  cases hf : d.find? fun p => p.1 == k with
  | none => rw [hf] at h; simp at h
  | some p =>
    rw [hf] at h
    have hv : p.2 = v := by simpa using h
    have hmem := List.mem_of_find?_eq_some hf
    have hk := List.find?_some hf
    have hp : p = (k, v) := by
      obtain ⟨p1, p2⟩ := p
      simp_all
    rwa [hp] at hmem

/-! ### Column lemmas -/

theorem mem_foldl_addCol_row (row : Dict) (acc : List String) (k : String)
    (h : k ∈ acc ∨ ∃ v, (k, v) ∈ row) :
    k ∈ row.foldl (fun a p => addCol a p.1) acc := by
  induction row generalizing acc with
  | nil =>
    rcases h with h | ⟨v, hv⟩
    · exact h
    · simp at hv
  | cons p row ih =>
    rw [List.foldl_cons]
    refine ih (addCol acc p.1) ?_
    rcases h with h | ⟨v, hv⟩
    · left
      unfold addCol
      split_ifs <;> simp [h]
    · rcases List.mem_cons.mp hv with h1 | h1
      · left
        have : p.1 = k := by rw [← h1]
        rw [this]
        unfold addCol
        split_ifs with hc
        · simpa using hc
        · simp
      · exact Or.inr ⟨v, h1⟩

theorem mem_dfColumns (df : List Dict) (k : String)
    (h : ∃ row ∈ df, ∃ v, (k, v) ∈ row) : k ∈ dfColumns df := by
  unfold dfColumns
  suffices hgen : ∀ acc : List String,
      (k ∈ acc ∨ ∃ row ∈ df, ∃ v, (k, v) ∈ row) →
      k ∈ df.foldl (fun acc row => row.foldl (fun a p => addCol a p.1) acc) acc by
    exact hgen [] (Or.inr h)
  clear h
  induction df with
  | nil =>
    intro acc h
    rcases h with h | ⟨row, hrow, _⟩
    · exact h
    · simp at hrow
  | cons r df ih =>
    intro acc h
    rw [List.foldl_cons]
    refine ih _ ?_
    rcases h with h | ⟨row, hrow, v, hv⟩
    · exact Or.inl (mem_foldl_addCol_row r acc k (Or.inl h))
    · rcases List.mem_cons.mp hrow with h1 | h1
      · exact Or.inl (mem_foldl_addCol_row r acc k (Or.inr ⟨v, h1 ▸ hv⟩))
      · exact Or.inr ⟨row, h1, v, hv⟩

theorem mkItem_get_subtotal_isSome (material : String) (medida cobertura : ℚ)
    (unidade : String) (desperdicio preco_unit : ℚ) (esp : Dict) :
    ∃ v, Dict.get
        (mkItem material medida cobertura unidade desperdicio preco_unit esp)
        "Subtotal" = some v := by
  rw [mkItem_eq_update]
  rcases Dict.get_update_cases esp
      (fixedFields material medida cobertura unidade desperdicio
        (roundTo 3 (calc_qtd_necessaria medida cobertura desperdicio))
        preco_unit
        (roundTo 2 (preco_unit *
          roundTo 3 (calc_qtd_necessaria medida cobertura desperdicio))))
      "Subtotal" with h | ⟨v, _, h⟩
  · exact ⟨_, by rw [h, fixedFields_get_subtotal]⟩
  · exact ⟨v, h⟩

theorem hasCol_subtotal_of_cons (c : Call) (cs : List Call) :
    hasCol (runCalls (c :: cs)) "Subtotal" = true := by
  unfold hasCol
  obtain ⟨v, hv⟩ := mkItem_get_subtotal_isSome c.material c.medida c.cobertura
    c.unidade c.desperdicio c.preco_unit c.especificacoes
  have hmem : ("Subtotal", v) ∈ itemOfCall c := Dict.get_some_mem _ _ _ hv
  have hrow : itemOfCall c ∈ runCalls (c :: cs) := by
    rw [runCalls_eq_map]
    exact List.mem_cons_self _ _
  have := mem_dfColumns (runCalls (c :: cs)) "Subtotal" ⟨_, hrow, v, hmem⟩
  simpa using this

/-! ### Claim theorems -/

/-- C1: for every measurement `m`, coverage `c` and waste percent `w`,
`calc_qtd_necessaria m c w` is `0` when `c ≤ 0` and
`(m / c) * (1 + w / 100)` otherwise.  The function is total, so it never
raises or divides by zero. -/
theorem calc_qtd_necessaria_spec (m c w : ℚ) :
    (c ≤ 0 → calc_qtd_necessaria m c w = 0) ∧
    (¬ c ≤ 0 → calc_qtd_necessaria m c w = m / c * (1 + w / 100)) := by
  constructor <;> intro h <;> simp [calc_qtd_necessaria, h]

theorem calc_qtd_necessaria_spec_witness :
    ((0 : ℚ) ≤ 0 ∧ calc_qtd_necessaria 10 0 5 = 0) ∧
    (¬ (2 : ℚ) ≤ 0 ∧ calc_qtd_necessaria 10 2 10 = 10 / 2 * (1 + 10 / 100)) :=
  ⟨⟨le_refl 0, (calc_qtd_necessaria_spec 10 0 5).1 (le_refl 0)⟩,
   ⟨by norm_num, (calc_qtd_necessaria_spec 10 2 10).2 (by norm_num)⟩⟩

/-- C2: for every input to `add_item` whose extra fields do not collide
with the derived columns, the stored item's required quantity is
`calc_qtd_necessaria` rounded to 3 decimals, its subtotal is
`round(preco_unit * qtd, 2)`, the item is the eight fixed fields merged
with the extra fields, and the item is appended at the end of the
ledger. -/
theorem add_item_spec (st : List Dict) (material : String)
    (medida cobertura : ℚ) (unidade : String) (desperdicio preco_unit : ℚ)
    (esp : Dict)
    (hq : Dict.get esp "Qtd Necessária" = none)
    (hs : Dict.get esp "Subtotal" = none) :
    Dict.get (mkItem material medida cobertura unidade desperdicio preco_unit esp)
        "Qtd Necessária"
      = some (Val.num (roundTo 3 (calc_qtd_necessaria medida cobertura desperdicio))) ∧
    Dict.get (mkItem material medida cobertura unidade desperdicio preco_unit esp)
        "Subtotal"
      = some (Val.num (roundTo 2 (preco_unit *
          roundTo 3 (calc_qtd_necessaria medida cobertura desperdicio)))) ∧
    mkItem material medida cobertura unidade desperdicio preco_unit esp
      = Dict.update
          (fixedFields material medida cobertura unidade desperdicio
            (roundTo 3 (calc_qtd_necessaria medida cobertura desperdicio))
            preco_unit
            (roundTo 2 (preco_unit *
              roundTo 3 (calc_qtd_necessaria medida cobertura desperdicio))))
          esp ∧
    add_item st material medida cobertura unidade desperdicio preco_unit esp
      = st ++ [mkItem material medida cobertura unidade desperdicio preco_unit esp] := by
  refine ⟨?_, ?_, mkItem_eq_update _ _ _ _ _ _ _, rfl⟩
  · rw [mkItem_eq_update, Dict.get_update_of_none _ _ _ hq, fixedFields_get_qtd]
  · rw [mkItem_eq_update, Dict.get_update_of_none _ _ _ hs, fixedFields_get_subtotal]

theorem add_item_spec_witness :
    Dict.get especSample "Qtd Necessária" = none ∧
    Dict.get especSample "Subtotal" = none ∧
    (Dict.get (mkItem "Cola" 2 1 "un" 5 3 especSample) "Qtd Necessária"
        = some (Val.num (roundTo 3 (calc_qtd_necessaria 2 1 5))) ∧
     Dict.get (mkItem "Cola" 2 1 "un" 5 3 especSample) "Subtotal"
        = some (Val.num (roundTo 2 (3 * roundTo 3 (calc_qtd_necessaria 2 1 5)))) ∧
     mkItem "Cola" 2 1 "un" 5 3 especSample
        = Dict.update
            (fixedFields "Cola" 2 1 "un" 5 (roundTo 3 (calc_qtd_necessaria 2 1 5))
              3 (roundTo 2 (3 * roundTo 3 (calc_qtd_necessaria 2 1 5))))
            especSample ∧
     add_item [] "Cola" 2 1 "un" 5 3 especSample
        = [] ++ [mkItem "Cola" 2 1 "un" 5 3 especSample]) :=
  ⟨rfl, rfl, add_item_spec [] "Cola" 2 1 "un" 5 3 especSample rfl rfl⟩

/-- C3: the ledger is append-only.  From the empty session, `n` `add_item`
calls leave the summary projection with exactly the `n` items in call
order, and appending one more call extends the previous ledger by one
row at the end, leaving existing rows untouched. -/
theorem ledger_append_only :
    (∀ calls : List Call, df_resumo (runCalls calls) = calls.map itemOfCall) ∧
    (∀ calls : List Call,
      (df_resumo (runCalls calls)).length = calls.length) ∧
    (∀ (calls : List Call) (c : Call),
      runCalls (calls ++ [c]) = runCalls calls ++ [itemOfCall c]) := by
  refine ⟨fun calls => runCalls_eq_map calls, fun calls => ?_, fun calls c => ?_⟩
  · show (runCalls calls).length = calls.length
    rw [runCalls_eq_map, List.length_map]
  · rw [runCalls_eq_map, runCalls_eq_map, List.map_append]
    rfl

/-- C4: the grand total is the materials total plus labor plus taxes; the
materials total of any non-empty ledger reached by `add_item` calls is
the sum of the rows' `Subtotal` column, and it is `0` on the empty
ledger, so the empty ledger with labor 10 and taxes 5 yields 15. -/
theorem total_final_spec :
    (∀ (df : List Dict) (mao imp : ℚ),
      total_final df mao imp = total_materiais df + mao + imp) ∧
    (∀ calls : List Call, calls ≠ [] →
      total_materiais (runCalls calls) = colSum (runCalls calls) "Subtotal") ∧
    total_materiais [] = 0 ∧
    total_final [] 10 5 = 15 := by
  refine ⟨fun df mao imp => rfl, ?_, rfl, ?_⟩
  · intro calls hne
    cases calls with
    | nil => exact absurd rfl hne
    | cons c cs =>
      unfold total_materiais
      rw [hasCol_subtotal_of_cons c cs]
      rfl
  · show total_materiais [] + 10 + 5 = 15
    norm_num [total_materiais, hasCol, dfColumns]

theorem total_final_spec_witness :
    ([cimentoCall] : List Call) ≠ [] ∧
    total_materiais (runCalls [cimentoCall])
      = colSum (runCalls [cimentoCall]) "Subtotal" :=
  ⟨by simp, total_final_spec.2.1 [cimentoCall] (by simp)⟩

/-- C5 counterexample: on the same one-row table the CSV exporter's
logical content differs from the PDF exporter's — the CSV (like the
spreadsheet) emits the table only, with no title/header block and no
totals block, so the four exporters do not render the same logical
content. -/
theorem exporters_not_same_content :
    make_csv_content sampleDf
      ≠ make_pdf_content sampleDf "Obra" "Ana" "Beto" 10 5 "01/01/2025 00:00" ∧
    (make_csv_content sampleDf).filter Elem.isTotals = [] ∧
    (make_excel_content sampleDf).filter Elem.isTotals = [] := by
  refine ⟨?_, rfl, rfl⟩
  simp [make_csv_content, make_pdf_content, sampleDf, tableOf]

/-- C5 amended: only the PDF and DOCX exporters render the title/metadata
header and the totals block (materials, labor, taxes, grand total, each
as currency with 2 decimal places), and the two render identical totals
blocks; the spreadsheet and CSV exporters render the table alone. -/
theorem exporters_content_amended :
    (∀ df : List Dict,
      make_excel_content df = [tableOf df] ∧
      make_csv_content df = [tableOf df]) ∧
    (∀ df : List Dict,
      (make_excel_content df).filter Elem.isTotals = [] ∧
      (make_csv_content df).filter Elem.isTotals = []) ∧
    (∀ (df : List Dict) (p c r : String) (mao imp : ℚ) (now : String),
      (make_pdf_content df p c r mao imp now).filter Elem.isTotals
        = (make_docx_content df p c r mao imp now).filter Elem.isTotals) ∧
    (∀ (df : List Dict) (p c r : String) (mao imp : ℚ) (now : String),
      df ≠ [] →
      (make_pdf_content df p c r mao imp now).filter Elem.isTotals
        = totalsBlock df mao imp) := by
  refine ⟨fun df => ⟨rfl, rfl⟩, fun df => ⟨rfl, rfl⟩, ?_, ?_⟩
  · intro df p c r mao imp now
    cases df <;>
      simp [make_pdf_content, make_docx_content, totalsBlock, tableOf,
        Elem.isTotals, List.filter]
  · intro df p c r mao imp now hne
    cases df with
    | nil => exact absurd rfl hne
    | cons d ds =>
      simp [make_pdf_content, totalsBlock, tableOf, Elem.isTotals, List.filter]

theorem exporters_content_amended_witness :
    sampleDf ≠ [] ∧
    (make_pdf_content sampleDf "Obra" "Ana" "Beto" 10 5 "01/01/2025 00:00").filter
        Elem.isTotals
      = totalsBlock sampleDf 10 5 :=
  ⟨by simp [sampleDf],
   exporters_content_amended.2.2.2 sampleDf "Obra" "Ana" "Beto" 10 5
     "01/01/2025 00:00" (by simp [sampleDf])⟩

/-- C6: on the empty table every exporter still yields output (all four
model functions are total); the PDF and DOCX exporters emit only the
title/metadata header — no table and no totals block — while the CSV
exporter emits the single newline of a header-only frame and the
spreadsheet exporter an empty table. -/
theorem exporters_empty_table :
    (∀ (p c r : String) (mao imp : ℚ) (now : String),
      make_pdf_content [] p c r mao imp now
        = [Elem.title ("Orçamento de Materiais — " ++ p),
           Elem.metaLine ("Cliente: " ++ orDash c ++ " | Responsável: " ++
             orDash r ++ " | Data: " ++ now)]) ∧
    (∀ (p c r : String) (mao imp : ℚ) (now : String),
      make_docx_content [] p c r mao imp now
        = [Elem.title ("Orçamento de Materiais — " ++ p),
           Elem.metaLine ("Cliente: " ++ orDash c),
           Elem.metaLine ("Responsável: " ++ orDash r),
           Elem.metaLine ("Data: " ++ now),
           Elem.metaLine ""]) ∧
    make_csv_string [] = "\n" ∧
    make_excel_content [] = [Elem.tableElem [] []] :=
  ⟨fun _ _ _ _ _ _ => rfl, fun _ _ _ _ _ _ => rfl, rfl, rfl⟩

/-- C7: adding Cimento with measurement 50, coverage 25, waste 10 % and
unit price 30 stores a required quantity of exactly 2.2 (= 11/5) and a
subtotal of exactly 66.0 after the declared roundings. -/
theorem cimento_scenario :
    Dict.get (mkItem "Cimento" 50 25 "saco" 10 30 []) "Qtd Necessária"
      = some (Val.num (11/5)) ∧
    Dict.get (mkItem "Cimento" 50 25 "saco" 10 30 []) "Subtotal"
      = some (Val.num 66) := by
  have h : roundTo 3 (calc_qtd_necessaria 50 25 10) = 11/5 := by
    unfold calc_qtd_necessaria roundTo roundHalfEven
    norm_num
  have h2 : roundTo 2 (30 * (11/5 : ℚ)) = 66 := by
    unfold roundTo roundHalfEven
    norm_num
  constructor
  · rw [mkItem_eq_update, Dict.update_nil, h, fixedFields_get_qtd]
  · rw [mkItem_eq_update, Dict.update_nil, h, h2, fixedFields_get_subtotal]

/-- C8: `item.update(especificacoes)` runs after the fixed fields are
written, so any extra-field key — including a fixed column name such as
`"Subtotal"` — ends up with the extra field's value in the stored item. -/
theorem especificacoes_overwrite (material : String) (medida cobertura : ℚ)
    (unidade : String) (desperdicio preco_unit : ℚ) (esp : Dict)
    (hnd : (esp.map Prod.fst).Nodup) (k : String) (v : Val)
    (hk : Dict.get esp k = some v) :
    Dict.get (mkItem material medida cobertura unidade desperdicio preco_unit esp) k
      = some v := by
  rw [mkItem_eq_update]
  exact Dict.get_update_of_get esp _ k v hnd hk

theorem especificacoes_overwrite_witness :
    (([("Subtotal", Val.num 0)] : Dict).map Prod.fst).Nodup ∧
    Dict.get [("Subtotal", Val.num 0)] "Subtotal" = some (Val.num 0) ∧
    Dict.get (mkItem "Tinta" 1 1 "un" 0 0 [("Subtotal", Val.num 0)]) "Subtotal"
      = some (Val.num 0) :=
  ⟨by simp, rfl,
   especificacoes_overwrite "Tinta" 1 1 "un" 0 0 [("Subtotal", Val.num 0)]
     (by simp) "Subtotal" (Val.num 0) rfl⟩

/-- The item built from non-negative inputs has non-negative derived
fields wherever they are numeric. -/
theorem mkItem_rowNonneg (material : String) (medida cobertura : ℚ)
    (unidade : String) (desperdicio preco_unit : ℚ) (esp : Dict)
    (hm : 0 ≤ medida) (hd : 0 ≤ desperdicio) (hp : 0 ≤ preco_unit)
    (hesp : ∀ p ∈ esp, Val.nonnegB p.2 = true) :
    rowNonneg (mkItem material medida cobertura unidade desperdicio preco_unit esp) := by
  intro q hq
  have hqtd : 0 ≤ roundTo 3 (calc_qtd_necessaria medida cobertura desperdicio) :=
    roundTo_nonneg _ _ (calc_qtd_necessaria_nonneg _ _ _ hm hd)
  have hsub : 0 ≤ roundTo 2 (preco_unit *
      roundTo 3 (calc_qtd_necessaria medida cobertura desperdicio)) :=
    roundTo_nonneg _ _ (mul_nonneg hp hqtd)
  rw [mkItem_eq_update] at hq
  rcases hq with hq | hq
  · rcases Dict.get_update_cases esp _ "Qtd Necessária" with hcase | ⟨v, hmem, hcase⟩
    · rw [hcase, fixedFields_get_qtd] at hq
      obtain rfl : roundTo 3 (calc_qtd_necessaria medida cobertura desperdicio) = q := by
        simpa using hq
      exact hqtd
    · rw [hcase] at hq
      obtain rfl : v = Val.num q := by simpa using hq
      have := hesp _ hmem
      simpa [Val.nonnegB] using this
  · rcases Dict.get_update_cases esp _ "Subtotal" with hcase | ⟨v, hmem, hcase⟩
    · rw [hcase, fixedFields_get_subtotal] at hq
      obtain rfl : roundTo 2 (preco_unit *
          roundTo 3 (calc_qtd_necessaria medida cobertura desperdicio)) = q := by
        simpa using hq
      exact hsub
    · rw [hcase] at hq
      obtain rfl : v = Val.num q := by simpa using hq
      have := hesp _ hmem
      simpa [Val.nonnegB] using this

/-- C9: if every numeric input of every `add_item` call is non-negative,
every stored item's required quantity and subtotal are non-negative in
every reachable ledger state, and one `add_item` step preserves the
invariant. -/
theorem nonneg_invariant :
    (∀ (st : List Dict) (c : Call),
      (∀ row ∈ st, rowNonneg row) → goodCall c →
      ∀ row ∈ stepCall st c, rowNonneg row) ∧
    (∀ calls : List Call, (∀ c ∈ calls, goodCall c) →
      ∀ row ∈ runCalls calls, rowNonneg row) := by
  have hitem : ∀ c : Call, goodCall c → rowNonneg (itemOfCall c) := fun c hc =>
    mkItem_rowNonneg _ _ _ _ _ _ _ hc.1 hc.2.2.1 hc.2.2.2.1 hc.2.2.2.2
  constructor
  · intro st c hst hc row hrow
    rcases List.mem_append.mp hrow with h | h
    · exact hst row h
    · obtain rfl : row = itemOfCall c := by simpa using h
      exact hitem c hc
  · intro calls hcalls row hrow
    rw [runCalls_eq_map] at hrow
    obtain ⟨c, hcmem, rfl⟩ := List.mem_map.mp hrow
    exact hitem c (hcalls c hcmem)

theorem nonneg_invariant_witness :
    (∀ c ∈ ([cimentoCall] : List Call), goodCall c) ∧
    ∀ row ∈ runCalls [cimentoCall], rowNonneg row := by
  have hgood : ∀ c ∈ ([cimentoCall] : List Call), goodCall c := by
    intro c hc
    obtain rfl : c = cimentoCall := by simpa using hc
    exact ⟨by norm_num [cimentoCall], by norm_num [cimentoCall],
      by norm_num [cimentoCall], by norm_num [cimentoCall], by simp [cimentoCall]⟩
  exact ⟨hgood, nonneg_invariant.2 [cimentoCall] hgood⟩

/-- C10: the CSV exporter's output is a function of the table alone —
equal tables give byte-identical output — whereas the PDF and DOCX
exporters' content changes with the generation timestamp. -/
theorem csv_deterministic :
    (∀ df1 df2 : List Dict, df1 = df2 → make_csv_string df1 = make_csv_string df2) ∧
    make_pdf_content [] "P" "C" "R" 0 0 "01/01/2025 10:00"
      ≠ make_pdf_content [] "P" "C" "R" 0 0 "02/01/2025 10:00" ∧
    make_docx_content [] "P" "C" "R" 0 0 "01/01/2025 10:00"
      ≠ make_docx_content [] "P" "C" "R" 0 0 "02/01/2025 10:00" := by
  refine ⟨fun df1 df2 h => by rw [h], by decide, by decide⟩

theorem csv_deterministic_witness :
    sampleDf = sampleDf ∧ make_csv_string sampleDf = make_csv_string sampleDf :=
  ⟨rfl, csv_deterministic.1 sampleDf sampleDf rfl⟩

end Obramais
